import Mathlib

/-!
Verification development for the mcp-client repository (backend.py,
backend2.py, frontend2.py): a shallow embedding of its data model,
orchestration loop, conversation store and helpers, with theorems
settling the specification claims.
-/

namespace MCPClient

/-- Role of a Message: `user`, `assistant` or `tool` (spec section 3;
langchain message types used throughout backend.py). -/
inductive Role
  | user
  | assistant
  | tool
  deriving DecidableEq, Repr

/-- ToolCallRecord: the name/arguments pair produced by the Completion
Client, with the call identifier `id` linking a tool result back to its
request (spec section 3; the `tool_call` dicts read in backend2.py line 89
and frontend2.py line 168). Argument mappings are abstracted to a string. -/
structure ToolCallRecord where
  name : String
  args : String
  id : String
  deriving DecidableEq, Repr

/-- Message: role, content, optional tool-call requests, optional
tool-call identifier (spec section 3; langchain BaseMessage as used by
ChatState in backend.py lines 97-98). -/
structure Message where
  role : Role
  content : String
  tool_calls : List ToolCallRecord
  tool_call_id : Option String
  deriving DecidableEq, Repr

/-- ToolDescriptor: a named remote capability with an invocation handle
(spec section 3; langchain BaseTool as returned by load_mcp_tools in
backend.py line 69). The handle may fail, yielding an error string. -/
structure ToolDescriptor where
  name : String
  handle : String → Except String String

/-- Message produced for a ToolCallRecord naming no loaded tool.
Modelled from the spec: "if absent, the call is skipped and an
implementation-defined error result is appended" (spec section 4.3);
the ToolNode instance of backend.py line 111 is library code. -/
def invalid_tool_msg (tc : ToolCallRecord) : Message :=
  ⟨Role.tool, tc.name ++ " is not a valid tool.", [], some tc.id⟩

/-- Result Message for one ToolCallRecord. Modelled from the spec:
look up the matching ToolDescriptor by name; if present invoke it with
the supplied arguments, converting a failure to an error payload; if
absent append an error result (spec sections 4.3 and 7(c); the ToolNode
of backend.py line 111 is library code). -/
def tool_result (tools : List ToolDescriptor) (tc : ToolCallRecord) : Message :=
  match tools.find? (fun t => t.name = tc.name) with
  | some t =>
      match t.handle tc.args with
      | Except.ok out => ⟨Role.tool, out, [], some tc.id⟩
      | Except.error e => ⟨Role.tool, e, [], some tc.id⟩
  | none => invalid_tool_msg tc

/-- The tools node: one tool-result Message per ToolCallRecord, in
request order. Modelled from the spec (section 4.3); embeds the ToolNode
wired in backend.py lines 111 and 133. -/
def tool_node (tools : List ToolDescriptor) (tcs : List ToolCallRecord) : List Message :=
  tcs.map (tool_result tools)

/-- The conditional edge of backend.py line 134: route to the tools node
exactly when the completion response carries tool calls, otherwise end.
Modelled from the spec (section 4.3); tools_condition itself is library
code. -/
def tools_condition (m : Message) : Bool :=
  !m.tool_calls.isEmpty

/-- The two-state Orchestration Loop: invoke the Completion Client `llm`
on the history; on a terminal answer stop, on a tool-request append the
response and all tool results and loop. Modelled from the spec
(section 4.3): the loop of backend.py lines 128-139 with a nonempty tool
list, and the create_react_agent loop of backend2.py line 61 and
frontend2.py line 134, are library code. `fuel` bounds recursion depth
for the embedding only; `none` means the bound was hit. -/
def agent_loop (tools : List ToolDescriptor) (llm : List Message → Message) :
    Nat → List Message → Option (List Message)
  | 0, _ => none
  | fuel+1, hist =>
      let resp := llm hist
      if tools_condition resp then
        agent_loop tools llm fuel (hist ++ resp :: tool_node tools resp.tool_calls)
      else
        some (hist ++ [resp])

/-- The compiled graph of backend.py lines 128-139: when the tool list is
empty, tool_node is None and the graph is START → chat_node → END (one
completion call, no tool dispatch); otherwise chat_node has the
conditional edge to the tools node and the loop runs. -/
def chatbot (tools : List ToolDescriptor) (llm : List Message → Message)
    (fuel : Nat) (hist : List Message) : Option (List Message) :=
  if tools.isEmpty then
    match fuel with
    | 0 => none
    | _+1 => some (hist ++ [llm hist])
  else
    agent_loop tools llm fuel hist

/-- The prebuilt-agent entry point of backend2.py lines 56-67:
create_react_agent(llm, mcp_tools, checkpointer). Modelled from the
spec: the prebuilt agent runs the two-state loop of section 4.3
unconditionally. -/
def backend2_chatbot (tools : List ToolDescriptor) (llm : List Message → Message)
    (fuel : Nat) (hist : List Message) : Option (List Message) :=
  agent_loop tools llm fuel hist

/-- The web UI entry point of frontend2.py lines 122-140: it also calls
create_react_agent(llm, mcp_tools, checkpointer). Modelled from the
spec: same two-state loop of section 4.3. -/
def frontend2_chatbot (tools : List ToolDescriptor) (llm : List Message → Message)
    (fuel : Nat) (hist : List Message) : Option (List Message) :=
  agent_loop tools llm fuel hist

/-- load_mcp_tools of backend.py lines 69-81 (and backend2.py lines
32-44): the fetch from the remote tool provider either yields tools or
raises; every exception is caught and the empty list returned. -/
def load_mcp_tools (fetch : Except String (List ToolDescriptor)) : List ToolDescriptor :=
  match fetch with
  | Except.ok tools => tools
  | Except.error _ => []

/-- The Conversation Store. Modelled from the spec: a single
embedded-database file shared across all threads, logically
`thread_id → ordered list of serialized Message` (spec sections 4.4 and
6); the AsyncSqliteSaver opened in backend.py lines 118-123 is library
code. The store is the persisted append-only log of (thread, message)
pairs. -/
abbrev Store := List (String × Message)

/-- Append one Message to a thread.
Modelled from the spec: `append(thread_id, Message)` (spec section 4.4). -/
def append_msg (s : Store) (tid : String) (m : Message) : Store :=
  s ++ [(tid, m)]

/-- Load a thread's history.
Modelled from the spec: `load(thread_id) → ordered sequence of Message`
(spec section 4.4). -/
def load (s : Store) (tid : String) : List Message :=
  (s.filter (fun p => p.1 = tid)).map Prod.snd

/-- Process restart. Modelled from the spec: "durability guarantee =
survives process restart" (spec section 4.4) — the persisted log is
unchanged by a restart. -/
def restart (s : Store) : Store := s

/-- N append calls on one thread, in order. -/
def append_all (s : Store) (tid : String) (msgs : List Message) : Store :=
  msgs.foldl (fun st m => append_msg st tid m) s

/-- One turn of the Orchestration Loop threaded through the Conversation
Store, with a fallible Completion Client. Modelled from the spec: each
step's Message is appended to the store only after the step fully
completes, and a completion failure surfaces as a single error
(spec section 7; the checkpointer-committed execution of chatbot in
backend.py line 139 and process_message in frontend2.py lines 145-196 is
library code). The result pairs the committed store with `none` when the
recursion bound was hit, `some (Except.error e)` on a failed request, and
`some (Except.ok content)` on a terminal answer. -/
def run_turn (tools : List ToolDescriptor) (llm : List Message → Except String Message) :
    Nat → Store → String → Store × Option (Except String String)
  | 0, s, _ => (s, none)
  | fuel+1, s, tid =>
      match llm (load s tid) with
      | Except.error e => (s, some (Except.error e))
      | Except.ok resp =>
          let s1 := append_msg s tid resp
          if tools_condition resp then
            run_turn tools llm fuel
              ((tool_node tools resp.tool_calls).foldl (fun st m => append_msg st tid m) s1) tid
          else
            (s1, some (Except.ok resp.content))

/-- State of the MCPClientManager singleton of frontend2.py lines 55-98:
the class-level asyncio.Lock (`lock` is true while held), the cached
_client and the cached _tools. -/
structure ManagerState where
  lock : Bool
  client : Option Unit
  tools : Option (List ToolDescriptor)

/-- A fresh manager: lock free, no cached client, no cached tools
(frontend2.py lines 56-58: class attributes start as None). -/
def fresh_manager : ManagerState :=
  ⟨false, none, none⟩

/-- MCPClientManager.get_client of frontend2.py lines 67-77: acquire the
class asyncio.Lock, create the client if absent, release. Acquiring the
non-reentrant lock while it is already held by the running task never
resumes; that is modelled as `none`. -/
def get_client (s : ManagerState) : Option (Unit × ManagerState) :=
  if s.lock then
    none
  else
    let held : ManagerState := ⟨true, s.client, s.tools⟩
    let filled : ManagerState :=
      if held.client.isNone then ⟨true, some (), held.tools⟩ else held
    some ((), ⟨false, filled.client, filled.tools⟩)

/-- MCPClientManager.get_tools of frontend2.py lines 79-88: acquire the
class asyncio.Lock; if _tools is cached return it; otherwise await
self.get_client() — which acquires the same lock — then fetch, caching
the empty list on failure. `fetch` is the remote provider's response,
consulted only on the fetch path. `none` models a call that never
resumes. -/
def get_tools (s : ManagerState) (fetch : Except String (List ToolDescriptor)) :
    Option (List ToolDescriptor × ManagerState) :=
  if s.lock then
    none
  else
    let held : ManagerState := ⟨true, s.client, s.tools⟩
    match held.tools with
    | some ts => some (ts, ⟨false, held.client, held.tools⟩)
    | none =>
        match get_client held with
        | none => none
        | some (_, s2) =>
            let ts := load_mcp_tools fetch
            some (ts, ⟨false, s2.client, some ts⟩)

/-- MCPClientManager.cleanup of frontend2.py lines 90-98: under the lock,
if a client exists, close it and clear both caches. -/
def cleanup (s : ManagerState) : Option ManagerState :=
  if s.lock then
    none
  else
    if (⟨true, s.client, s.tools⟩ : ManagerState).client.isSome then
      some ⟨false, none, none⟩
    else
      some ⟨false, s.client, s.tools⟩

/-- A checkpoint tuple as enumerated by checkpointer.alist(None): only
its thread_id is consulted (backend.py line 147). -/
structure CheckpointTuple where
  thread_id : String
  deriving DecidableEq, Repr

/-- Python set insertion: add x if not already present
(`all_threads.add(...)` in backend.py line 147). -/
def set_add (s : List String) (x : String) : List String :=
  if x ∈ s then s else s ++ [x]

/-- retrieve_all_threads of backend.py lines 144-152 (and backend2.py
lines 100-105, frontend2.py lines 201-211): fold every checkpoint's
thread_id into a set, then return it as a list. -/
def retrieve_all_threads (cps : List CheckpointTuple) : List String :=
  cps.foldl (fun s c => set_add s c.thread_id) []

/-! Concrete sample data used by witnesses. -/

/-- A sample user Message. -/
def user_msg : Message :=
  ⟨Role.user, "What tasks do I have?", [], none⟩

/-- A sample terminal assistant answer: non-empty content, no tool calls. -/
def answer_msg : Message :=
  ⟨Role.assistant, "You have two tasks.", [], none⟩

/-- A sample ToolCallRecord for the get_tasks tool. -/
def get_tasks_call : ToolCallRecord :=
  ⟨"get_tasks", "", "call_1"⟩

/-- A sample assistant tool-request Message carrying one ToolCallRecord. -/
def tool_request_msg : Message :=
  ⟨Role.assistant, "", [get_tasks_call], none⟩

/-- A sample ToolDescriptor whose invocation succeeds. -/
def get_tasks_tool : ToolDescriptor :=
  ⟨"get_tasks", fun _ => Except.ok ("task list")⟩

/-- A sample ToolCallRecord naming a tool that is never loaded. -/
def bad_call : ToolCallRecord :=
  ⟨"frobnicate", "", "call_9"⟩

/-- A sample assistant tool-request Message naming an unloaded tool. -/
def bad_request_msg : Message :=
  ⟨Role.assistant, "", [bad_call], none⟩

/-- A Completion Client that requests the get_tasks tool on the first
call of a turn and answers once the tool result is in the history. -/
def flip_llm (hist : List Message) : Message :=
  if hist.length ≤ 1 then tool_request_msg else answer_msg

/-- A Completion Client that requests tools until the history reaches
`bound` messages, then returns the terminal answer. -/
def llm_grow (bound : Nat) (hist : List Message) : Message :=
  if bound ≤ hist.length then answer_msg else tool_request_msg

/-- A Completion Client whose call always fails. -/
def boom_llm (_hist : List Message) : Except String Message :=
  Except.error ("boom")

/-! Helper lemmas about the Conversation Store. -/

theorem load_append_msg (s : Store) (tid : String) (m : Message) :
    load (append_msg s tid m) tid = load s tid ++ [m] := by
  simp [load, append_msg]

theorem foldl_append_msg_eq (msgs : List Message) (s : Store) (tid : String) :
    msgs.foldl (fun st m => append_msg st tid m) s = s ++ msgs.map (fun m => (tid, m)) := by
  induction msgs generalizing s with
  | nil => simp
  | cons m ms ih => rw [List.foldl_cons, ih]; simp [append_msg]

theorem load_foldl_append (msgs : List Message) (s : Store) (tid : String) :
    load (msgs.foldl (fun st m => append_msg st tid m) s) tid = load s tid ++ msgs := by
  induction msgs generalizing s with
  | nil => simp
  | cons m ms ih => rw [List.foldl_cons, ih, load_append_msg]; simp

theorem load_append_all (s : Store) (tid : String) (msgs : List Message) :
    load (append_all s tid msgs) tid = load s tid ++ msgs :=
  load_foldl_append msgs s tid

/-- Claim C2: for every thread identifier and message list, loading the
thread after the appends — and after a process restart — returns exactly
the appended Messages in append order after any prior history; on a
fresh thread it returns exactly the appended Messages. -/
theorem load_after_append_returns_appended_messages
    (s : Store) (tid : String) (msgs : List Message) :
    load (restart (append_all s tid msgs)) tid = load s tid ++ msgs ∧
    load (restart (append_all ([] : Store) tid msgs)) tid = msgs := by
  constructor
  · simpa [restart] using load_append_all s tid msgs
  · simpa [restart, load] using load_append_all [] tid msgs

/-- Claim C3: a connection or protocol error during tool loading yields
the empty tool list rather than propagating, and the compiled chatbot
still produces the terminal answer when the Completion Client returns a
response without tool calls. -/
theorem load_tools_fails_soft_and_loop_terminates
    (e : String) (llm : List Message → Message) (fuel : Nat) (hist : List Message)
    (hterm : (llm hist).tool_calls = []) :
    load_mcp_tools (Except.error e) = [] ∧
    tools_condition (llm hist) = false ∧
    chatbot (load_mcp_tools (Except.error e)) llm (fuel+1) hist = some (hist ++ [llm hist]) := by
  refine ⟨rfl, ?_, ?_⟩
  · simp [tools_condition, hterm]
  · simp [chatbot, load_mcp_tools]

/-- Witness for C3 at a concrete failed fetch and terminal response. -/
theorem load_tools_fails_soft_witness :
    load_mcp_tools (Except.error ("connection refused")) = [] ∧
    tools_condition (answer_msg) = false ∧
    chatbot (load_mcp_tools (Except.error ("connection refused")))
      (fun _ => answer_msg) 1 [user_msg] = some ([user_msg] ++ [answer_msg]) :=
  load_tools_fails_soft_and_loop_terminates ("connection refused")
    (fun _ => answer_msg) 0 [user_msg] rfl

/-! Helper lemmas about thread enumeration. -/

theorem mem_foldl_set_add (l : List CheckpointTuple) (acc : List String) (x : String) :
    x ∈ l.foldl (fun s c => set_add s c.thread_id) acc ↔
      x ∈ acc ∨ x ∈ l.map CheckpointTuple.thread_id := by
  induction l generalizing acc with
  | nil => simp
  | cons c cs ih =>
      rw [List.foldl_cons, ih]
      unfold set_add
      by_cases h : c.thread_id ∈ acc
      · simp [h]
        constructor
        · rintro (hx | hx)
          · exact Or.inl hx
          · exact Or.inr (Or.inr hx)
        · rintro (hx | hx | hx)
          · exact Or.inl hx
          · exact Or.inl (hx ▸ h)
          · exact Or.inr hx
      · simp [h]
        tauto

theorem nodup_foldl_set_add (l : List CheckpointTuple) (acc : List String) (h : acc.Nodup) :
    (l.foldl (fun s c => set_add s c.thread_id) acc).Nodup := by
  induction l generalizing acc with
  | nil => simpa
  | cons c cs ih =>
      rw [List.foldl_cons]
      apply ih
      unfold set_add
      split
      · exact h
      · next hnm =>
          simp [List.nodup_append, h, hnm]

/-- Claim C10: retrieve_all_threads returns each thread identifier at
most once; it contains an identifier exactly when some checkpoint
carries it, and its length is the number of distinct thread identifiers,
not the number of checkpoints. -/
theorem retrieve_all_threads_distinct (cps : List CheckpointTuple) :
    (retrieve_all_threads cps).Nodup ∧
    (∀ t, t ∈ retrieve_all_threads cps ↔ t ∈ cps.map CheckpointTuple.thread_id) ∧
    (retrieve_all_threads cps).length = (cps.map CheckpointTuple.thread_id).toFinset.card := by
  have hnd : (retrieve_all_threads cps).Nodup :=
    nodup_foldl_set_add cps [] (by simp)
  have hmem : ∀ t, t ∈ retrieve_all_threads cps ↔ t ∈ cps.map CheckpointTuple.thread_id := by
    intro t
    simpa [retrieve_all_threads] using mem_foldl_set_add cps [] t
  refine ⟨hnd, hmem, ?_⟩
  have hfs : (retrieve_all_threads cps).toFinset = (cps.map CheckpointTuple.thread_id).toFinset := by
    ext t
    simp [List.mem_toFinset, hmem t]
  rw [← List.toFinset_card_of_nodup hnd, hfs]

/-! Helper lemmas about tool results. -/

theorem tool_result_id (tools : List ToolDescriptor) (tc : ToolCallRecord) :
    (tool_result tools tc).tool_call_id = some tc.id := by
  unfold tool_result
  cases h : tools.find? (fun t => t.name = tc.name) with
  | none => simp [invalid_tool_msg]
  | some td => cases hh : td.handle tc.args <;> simp [hh]

theorem filter_tool_node_eq_nil (tools : List ToolDescriptor) (ts : List ToolCallRecord)
    (i : String) (hni : i ∉ ts.map ToolCallRecord.id) :
    (tool_node tools ts).filter (fun m => m.tool_call_id = some i) = [] := by
  induction ts with
  | nil => simp [tool_node]
  | cons t rest ih =>
      simp only [List.map_cons, List.mem_cons, not_or] at hni
      obtain ⟨hne, hrest⟩ := hni
      have hstep : tool_node tools (t :: rest) = tool_result tools t :: tool_node tools rest := rfl
      rw [hstep, List.filter_cons]
      simp [tool_result_id, Ne.symm hne, ih hrest]

theorem tool_node_filter_id_length
    (tools : List ToolDescriptor) (tcs : List ToolCallRecord) (tc : ToolCallRecord)
    (hmem : tc ∈ tcs) (hnodup : (tcs.map ToolCallRecord.id).Nodup) :
    ((tool_node tools tcs).filter (fun m => m.tool_call_id = some tc.id)).length = 1 := by
  induction tcs with
  | nil => simp at hmem
  | cons t ts ih =>
      simp only [List.map_cons, List.nodup_cons] at hnodup
      obtain ⟨hid, hts⟩ := hnodup
      have hstep : tool_node tools (t :: ts) = tool_result tools t :: tool_node tools ts := rfl
      rcases List.mem_cons.mp hmem with h | h
      · subst h
        have hz : (tool_node tools ts).filter (fun m => m.tool_call_id = some tc.id) = [] :=
          filter_tool_node_eq_nil tools ts tc.id hid
        rw [hstep, List.filter_cons]
        simp [tool_result_id, hz]
      · have hne : t.id ≠ tc.id := by
          intro he
          exact hid (he ▸ List.mem_map_of_mem ToolCallRecord.id h)
        rw [hstep, List.filter_cons]
        simp [tool_result_id, hne, ih h hts]

/-- Claim C1: on a tool-request response with distinct call identifiers,
every ToolCallRecord gets exactly one tool-result Message carrying its
call identifier, and these results are all appended before the loop
re-invokes the Completion Client — no unresolved call survives into the
next completion. -/
theorem tool_requests_resolved_before_next_completion
    (tools : List ToolDescriptor) (llm : List Message → Message) (fuel : Nat)
    (hist : List Message)
    (hreq : (llm hist).tool_calls ≠ [])
    (hnodup : ((llm hist).tool_calls.map ToolCallRecord.id).Nodup) :
    (∀ tc ∈ (llm hist).tool_calls,
      ((tool_node tools (llm hist).tool_calls).filter
          (fun m => m.tool_call_id = some tc.id)).length = 1) ∧
    agent_loop tools llm (fuel+1) hist
      = agent_loop tools llm fuel
          (hist ++ llm hist :: tool_node tools (llm hist).tool_calls) := by
  refine ⟨fun tc hm => tool_node_filter_id_length tools _ tc hm hnodup, ?_⟩
  have hcond : tools_condition (llm hist) = true := by
    simp [tools_condition, List.isEmpty_iff, hreq]
  simp [agent_loop, hcond]

/-- Witness for C1 at a concrete tool-request response. -/
theorem tool_requests_resolved_witness :
    (∀ tc ∈ ((fun _ => tool_request_msg) [user_msg] : Message).tool_calls,
      ((tool_node [get_tasks_tool] ((fun _ => tool_request_msg) [user_msg] : Message).tool_calls).filter
          (fun m => m.tool_call_id = some tc.id)).length = 1) ∧
    agent_loop [get_tasks_tool] (fun _ => tool_request_msg) 1 [user_msg]
      = agent_loop [get_tasks_tool] (fun _ => tool_request_msg) 0
          ([user_msg] ++ tool_request_msg ::
            tool_node [get_tasks_tool] tool_request_msg.tool_calls) :=
  tool_requests_resolved_before_next_completion [get_tasks_tool]
    (fun _ => tool_request_msg) 0 [user_msg]
    (by simp [tool_request_msg]) (by simp [tool_request_msg, get_tasks_call])

/-- Claim C7: a ToolCallRecord naming no loaded ToolDescriptor invokes
nothing: the tools node yields the error-bearing tool-result Message in
its place, and the loop proceeds to the next completion invocation
rather than aborting. -/
theorem unknown_tool_error_result_and_loop_continues
    (tools : List ToolDescriptor) (llm : List Message → Message) (fuel : Nat)
    (hist : List Message) (tc : ToolCallRecord)
    (hcalls : (llm hist).tool_calls = [tc])
    (habsent : tools.find? (fun t => t.name = tc.name) = none) :
    tool_node tools (llm hist).tool_calls = [invalid_tool_msg tc] ∧
    agent_loop tools llm (fuel+1) hist
      = agent_loop tools llm fuel (hist ++ llm hist :: [invalid_tool_msg tc]) := by
  have h1 : tool_node tools (llm hist).tool_calls = [invalid_tool_msg tc] := by
    simp [hcalls, tool_node, tool_result, habsent]
  refine ⟨h1, ?_⟩
  have hcond : tools_condition (llm hist) = true := by
    simp [tools_condition, hcalls]
  simp [agent_loop, hcond, h1]

/-- Witness for C7 at a concrete unknown tool request. -/
theorem unknown_tool_witness :
    tool_node [] ((fun _ => bad_request_msg) [user_msg] : Message).tool_calls
      = [invalid_tool_msg bad_call] ∧
    agent_loop [] (fun _ => bad_request_msg) 1 [user_msg]
      = agent_loop [] (fun _ => bad_request_msg) 0
          ([user_msg] ++ bad_request_msg :: [invalid_tool_msg bad_call]) :=
  unknown_tool_error_result_and_loop_continues [] (fun _ => bad_request_msg) 0
    [user_msg] bad_call rfl rfl

/-- Claim C4: whenever a turn fails because a Completion Client call
errors, the committed store is the initial store extended only by the
Messages of fully completed steps — the failing step contributed no
incomplete or duplicate Message, so the history the failing call saw is
exactly what the store holds — and the error surfaces as a single
failed result. -/
theorem failed_step_commits_nothing
    (tools : List ToolDescriptor) (llm : List Message → Except String Message)
    (fuel : Nat) (s : Store) (tid : String) (w : Store) (e : String)
    (hrun : run_turn tools llm fuel s tid = (w, some (Except.error e))) :
    (∃ t, w = s ++ t) ∧ llm (load w tid) = Except.error e := by
  induction fuel generalizing s with
  | zero => simp [run_turn] at hrun
  | succ fuel ih =>
      rw [run_turn] at hrun
      cases hllm : llm (load s tid) with
      | error e2 =>
          rw [hllm] at hrun
          simp at hrun
          obtain ⟨hw, he⟩ := hrun
          subst hw
          subst he
          exact ⟨⟨[], by simp⟩, hllm⟩
      | ok resp =>
          rw [hllm] at hrun
          by_cases hc : tools_condition resp
          · simp only [hc, if_true] at hrun
            obtain ⟨t, hw⟩ := (ih _ hrun).1
            refine ⟨?_, (ih _ hrun).2⟩
            rw [foldl_append_msg_eq] at hw
            refine ⟨(tid, resp) :: (List.map (fun m => (tid, m)) (tool_node tools resp.tool_calls) ++ t), ?_⟩
            rw [hw]
            simp [append_msg]
          · simp only [hc, if_false] at hrun
            simp at hrun

/-- Witness for C4 at a concrete failing completion call. -/
theorem failed_step_commits_nothing_witness :
    (∃ t, ([] : Store) = [] ++ t) ∧
    boom_llm (load ([] : Store) ("t1")) = Except.error ("boom") :=
  failed_step_commits_nothing [] boom_llm 1 [] ("t1") [] ("boom") rfl

/-- Claim C9: the cache-miss path of MCPClientManager.get_tools never
completes — holding the class asyncio.Lock, it awaits get_client, which
acquires the same non-reentrant lock, so the first call on a fresh
manager blocks forever regardless of what the tool provider would
answer; the claimed fetch-and-cache behavior is unreachable. -/
theorem get_tools_first_call_blocks (fetch : Except String (List ToolDescriptor)) :
    get_tools fresh_manager fetch = none :=
  rfl

/-! Helper lemma for the unboundedness of the loop. -/

theorem agent_loop_grow (n : Nat) : ∀ hist : List Message,
    agent_loop [get_tasks_tool] (llm_grow (hist.length + 2*n)) n hist = none ∧
    ∃ pre, agent_loop [get_tasks_tool] (llm_grow (hist.length + 2*n)) (n+1) hist
      = some (pre ++ [answer_msg]) := by
  induction n with
  | zero =>
      intro hist
      have hresp : llm_grow hist.length hist = answer_msg := by
        simp only [llm_grow]
        rw [if_pos (by omega)]
      have hcond : tools_condition answer_msg = false := rfl
      constructor
      · simp [agent_loop]
      · exact ⟨hist, by simp [agent_loop, hresp, hcond]⟩
  | succ n ih =>
      intro hist
      have hresp : llm_grow (hist.length + 2*(n+1)) hist = tool_request_msg := by
        simp only [llm_grow]
        rw [if_neg (by omega)]
      have hcond : tools_condition tool_request_msg = true := rfl
      have hlen : (hist ++ tool_request_msg ::
          tool_node [get_tasks_tool] tool_request_msg.tool_calls).length = hist.length + 2 := by
        simp [tool_request_msg, tool_node]
      have harg : hist.length + 2*(n+1)
          = (hist ++ tool_request_msg ::
              tool_node [get_tasks_tool] tool_request_msg.tool_calls).length + 2*n := by
        rw [hlen]
        omega
      have hih := ih (hist ++ tool_request_msg ::
        tool_node [get_tasks_tool] tool_request_msg.tool_calls)
      rw [← harg] at hih
      constructor
      · have hstep : agent_loop [get_tasks_tool] (llm_grow (hist.length + 2*(n+1))) (n+1) hist
            = agent_loop [get_tasks_tool] (llm_grow (hist.length + 2*(n+1))) n
              (hist ++ tool_request_msg ::
                tool_node [get_tasks_tool] tool_request_msg.tool_calls) := by
          simp [agent_loop, hresp, hcond]
        rw [hstep]
        exact hih.1
      · obtain ⟨pre, hp⟩ := hih.2
        refine ⟨pre, ?_⟩
        have hstep : agent_loop [get_tasks_tool] (llm_grow (hist.length + 2*(n+1))) (n+1+1) hist
            = agent_loop [get_tasks_tool] (llm_grow (hist.length + 2*(n+1))) (n+1)
              (hist ++ tool_request_msg ::
                tool_node [get_tasks_tool] tool_request_msg.tool_calls) := by
          simp [agent_loop, hresp, hcond]
        rw [hstep]
        exact hp

/-- Claim C5: the Orchestration Loop has no iteration bound of its own:
for every candidate bound n there is a Completion Client under which the
loop is still unresolved after n completion rounds (fuel n yields none)
yet, allowed one more round, it terminates with the final textual
answer — so no finite cutoff is built into the loop. -/
theorem no_iteration_bound (n : Nat) :
    agent_loop [get_tasks_tool] (llm_grow (1 + 2*n)) n [user_msg] = none ∧
    ∃ pre, agent_loop [get_tasks_tool] (llm_grow (1 + 2*n)) (n+1) [user_msg]
      = some (pre ++ [answer_msg]) := by
  simpa using agent_loop_grow n [user_msg]

/-- Claim C6 counterexample: with an empty tool registry and a
Completion Client that first requests a tool, the graph-based entry
point of backend.py stops after one completion while the prebuilt-agent
entry point resolves the call and loops — the two append different
Message sequences for the same user message, completion responses and
tool results. -/
theorem entry_points_not_equivalent_with_empty_tools :
    chatbot [] flip_llm 2 [user_msg] ≠ backend2_chatbot [] flip_llm 2 [user_msg] := by
  decide

/-- Claim C6 amended: whenever the loaded tool list is nonempty, the
three entry points run the same orchestration loop and append the same
Message sequence for the same user message, completion responses and
tool results. -/
theorem entry_points_equivalent_with_tools
    (tools : List ToolDescriptor) (llm : List Message → Message) (fuel : Nat)
    (hist : List Message) (hne : tools ≠ []) :
    chatbot tools llm fuel hist = backend2_chatbot tools llm fuel hist ∧
    backend2_chatbot tools llm fuel hist = frontend2_chatbot tools llm fuel hist := by
  refine ⟨?_, rfl⟩
  have hemp : tools.isEmpty = false := by
    cases tools with
    | nil => exact absurd rfl hne
    | cons a l => rfl
  simp [chatbot, backend2_chatbot, hemp]

/-- Witness for the amended C6 with one loaded tool. -/
theorem entry_points_equivalent_witness :
    chatbot [get_tasks_tool] flip_llm 2 [user_msg]
      = backend2_chatbot [get_tasks_tool] flip_llm 2 [user_msg] ∧
    backend2_chatbot [get_tasks_tool] flip_llm 2 [user_msg]
      = frontend2_chatbot [get_tasks_tool] flip_llm 2 [user_msg] :=
  entry_points_equivalent_with_tools [get_tasks_tool] flip_llm 2 [user_msg] (by simp)

/-- Claim C8: a turn whose first completion requests exactly one tool
call that succeeds, and whose second completion is terminal, appends
exactly four Messages in order: user, assistant tool-request,
tool-result, assistant final answer. -/
theorem single_tool_call_turn_appends_four_messages
    (tools : List ToolDescriptor) (llm : List Message → Message) (fuel : Nat)
    (prior : List Message) (u r1 r2 : Message) (tc : ToolCallRecord)
    (td : ToolDescriptor) (out : String)
    (h1 : llm (prior ++ [u]) = r1)
    (h2 : r1.tool_calls = [tc])
    (h3 : tools.find? (fun t => t.name = tc.name) = some td)
    (h4 : td.handle tc.args = Except.ok out)
    (h5 : llm (prior ++ [u, r1, ⟨Role.tool, out, [], some tc.id⟩]) = r2)
    (h6 : r2.tool_calls = []) :
    chatbot tools llm (fuel+2) (prior ++ [u])
      = some (prior ++ [u, r1, ⟨Role.tool, out, [], some tc.id⟩, r2]) := by
  have hne : tools ≠ [] := by
    intro h
    rw [h] at h3
    simp at h3
  have hemp : tools.isEmpty = false := by
    cases tools with
    | nil => exact absurd rfl hne
    | cons a l => rfl
  have hres : tool_result tools tc = ⟨Role.tool, out, [], some tc.id⟩ := by
    simp [tool_result, h3, h4]
  have hnode : tool_node tools r1.tool_calls = [(⟨Role.tool, out, [], some tc.id⟩ : Message)] := by
    simp [h2, tool_node, hres]
  have hcond1 : tools_condition r1 = true := by
    simp [tools_condition, h2]
  have hcond2 : tools_condition r2 = false := by
    simp [tools_condition, h6]
  have hloop : chatbot tools llm (fuel+2) (prior ++ [u])
      = agent_loop tools llm (fuel+2) (prior ++ [u]) := by
    simp [chatbot, hemp]
  rw [hloop]
  simp only [agent_loop]
  simp [h1, hcond1, hnode, h5, hcond2, List.append_assoc]

/-- Witness for C8 at a concrete one-tool-call turn. -/
theorem single_tool_call_witness :
    chatbot [get_tasks_tool] flip_llm 2 ([] ++ [user_msg])
      = some ([] ++ [user_msg, tool_request_msg,
          ⟨Role.tool, "task list", [], some (get_tasks_call.id)⟩, answer_msg]) :=
  single_tool_call_turn_appends_four_messages [get_tasks_tool] flip_llm 0 []
    user_msg tool_request_msg answer_msg get_tasks_call get_tasks_tool ("task list")
    rfl rfl rfl rfl rfl rfl

end MCPClient
